import Mathlib

/-
Verification of the seisimic deployment tool (package `yocto`).

The Python sources are shallowly embedded: every external effect of a
modelled function (cloud CLI/SDK calls, user confirmation prompts, the
verifying-proxy process) is threaded in as an explicit argument or as a
component of an explicit state value, and exceptions are modelled with
`Except`.  JSON dictionaries are modelled as association lists keyed by
`String`.
-/

namespace Yocto

/-! ## Association-list helpers (model of Python dict access) -/

/-- Lookup of a key in an association list; models `d.get(k)` / `d[k]`. -/
def alookup {α : Type} : List (String × α) → String → Option α
  | [], _ => none
  | (k, v) :: t, key => if k = key then some v else alookup t key

/-- Setting a key in an association list; models `d[k] = v`. -/
def alistSet {α : Type} : List (String × α) → String → α → List (String × α)
  | [], key, v => [(key, v)]
  | (k, w) :: t, key, v =>
      if k = key then (key, v) :: t else (k, w) :: alistSet t key v

/-- Removal of a key from an association list; models `d.pop(k)`. -/
def alistRemove {α : Type} : List (String × α) → String → List (String × α)
  | [], _ => []
  | (k, w) :: t, key => if k = key then t else (k, w) :: alistRemove t key

/-! ## Metadata store (src/yocto/utils/metadata.py and deployment/deploy.py)

The deploy-metadata JSON file has top-level keys `resources` (provider →
vmName → resource record) and `artifacts`.  Absent keys default to empty
mappings on read (`metadata.get(..., ({}))`), so an absent partition and an
empty one are modelled alike as the empty association list. -/

/-- One persisted resource record, as written by
`DeployOutput.update_deploy_metadata`: the artifact file name, the public
IP and snapshots of the domain and vm configuration dictionaries (the two
snapshots are kept abstract as strings). -/
structure ResourceRecord where
  artifact : String
  public_ip : String
  domain : String
  vm : String
deriving DecidableEq, Repr

/-- The deploy-metadata store: `resources` maps a provider key to a
partition mapping VM names to records; `artifacts` is kept abstract. -/
structure Metadata where
  resources : List (String × List (String × ResourceRecord))
  artifacts : List (String × String)
deriving DecidableEq, Repr

/-- Model of `DeployOutput.update_deploy_metadata`
(src/yocto/deployment/deploy.py lines 98-113): ensure the provider
partition exists, then set the entry for the VM name and write the file
back.  The source also eagerly creates empty sibling partitions when the
`resources` key is absent; that is not observable through lookups and is
not modelled. -/
def update_deploy_metadata (md : Metadata) (cloud vmName : String)
    (rec : ResourceRecord) : Metadata :=
  let part := (alookup md.resources cloud).getD []
  { md with resources := alistSet md.resources cloud (alistSet part vmName rec) }

/-- Model of `remove_vm_from_metadata` (src/yocto/utils/metadata.py):
no-op when the VM name is absent from the provider partition, otherwise
pop the entry and write the file back. -/
def remove_vm_from_metadata (md : Metadata) (name cloud : String) : Metadata :=
  let part := (alookup md.resources cloud).getD []
  match alookup part name with
  | none => md
  | some _ => { md with resources := alistSet md.resources cloud (alistRemove part name) }

/-- Lookup of the resource record for a `(provider, vmName)` key. -/
def lookupResource (md : Metadata) (cloud vmName : String) : Option ResourceRecord :=
  match alookup md.resources cloud with
  | none => none
  | some part => alookup part vmName

/-! ## Top-level deploy flow (src/yocto/cli.py `main`, lines 53-62)

Inside the `try` block the source runs, in order:
`deploy_output = deployer.deploy()`, then
`deploy_output.update_deploy_metadata()`, then
`deployer.start_proxy_server(deploy_output.public_ip)`, and returns 0;
the `except` clause returns 1.  The outcome of `deployer.deploy()` and of
the attestation handshake are threaded in as `Except` arguments. -/

/-- Result of `Deployer.deploy`: the artifact file name and the public IP
of the freshly created VM (it raises on failure, including when the
public IP comes back empty). -/
structure DeployOutput where
  artifact : String
  public_ip : String
deriving DecidableEq, Repr

/-- Model of the deploy path of `main` (src/yocto/cli.py): returns the
process exit code together with the final state of the metadata store.
`deployRes` is the outcome of `deployer.deploy()` and `attestRes` the
outcome of `deployer.start_proxy_server` (the attestation handshake). -/
def mainDeployFlow (md : Metadata) (cloud vmName domainSnap vmSnap : String)
    (deployRes : Except String DeployOutput)
    (attestRes : Except String Unit) : Nat × Metadata :=
  match deployRes with
  | .error _ => (1, md)
  | .ok out =>
      let md1 := update_deploy_metadata md cloud vmName
        ⟨out.artifact, out.public_ip, domainSnap, vmSnap⟩
      match attestRes with
      | .error _ => (1, md1)
      | .ok _ => (0, md1)

/-! ## Disk upload (src/yocto/cloud/azure/api.py `AzureApi.upload_disk`,
lines 369-374)

The source is a plain three-statement sequence with no `try`/`finally`:
`sas_uri = _grant_disk_access(...)`; `_copy_disk(...)`;
`_revoke_disk_access(...)`.  Each helper raises
`subprocess.CalledProcessError` when its CLI call fails; the outcomes are
threaded in as `Except` arguments and the number of invocations of each
phase is recorded in a trace. -/

/-- Invocation counts of the three phases of `upload_disk`. -/
structure UploadTrace where
  grantCalls : Nat
  copyCalls : Nat
  revokeCalls : Nat
deriving DecidableEq, Repr

/-- Model of `AzureApi.upload_disk`: grant, copy, revoke, run strictly in
sequence; an exception from any phase propagates immediately and the
following phases are not invoked. -/
def upload_disk (grantRes : Except String String) (copyRes : Except String Unit)
    (revokeRes : Except String Unit) (tr : UploadTrace) :
    Except String Unit × UploadTrace :=
  let tr1 := { tr with grantCalls := tr.grantCalls + 1 }
  match grantRes with
  | .error e => (.error e, tr1)
  | .ok _sasUri =>
      let tr2 := { tr1 with copyCalls := tr1.copyCalls + 1 }
      match copyRes with
      | .error e => (.error e, tr2)
      | .ok _ =>
          let tr3 := { tr2 with revokeCalls := tr2.revokeCalls + 1 }
          match revokeRes with
          | .error e => (.error e, tr3)
          | .ok _ => (.ok (), tr3)

/-! ## Attestation handshake (src/yocto/proxy.py `ProxyClient`)

`ProxyClient.start` launches the verifying proxy process, waits up to 5
seconds for an early exit (early exit raises `RuntimeError` with the
captured stderr), starts a thread that drives one HTTP request through
the proxy, and then calls `_monitor_attestation`.  The monitor reads
stdout line by line; a line containing the success marker makes it join
the request thread and return `True`; otherwise, once the elapsed time at
the post-read check exceeds 30 seconds, it raises `TimeoutError`.  An
exception raised inside the request thread dies with the thread and is
never re-raised in the monitoring flow.

The process is embedded as a trace: the grace-window behaviour, the
sequence of stdout line reads (each tagged with the elapsed seconds at
the moment the monitor performs its timeout check for that line) and the
success of the probe request are all environment inputs. -/

/-- Marker line fragment that `_monitor_attestation` looks for. -/
def attestationMarker : String := "Successfully validated attestation document"

/-- Membership test of the marker in an output line; models the Python
`in` operator on strings. -/
def containsMarker (line : String) : Bool :=
  decide (attestationMarker.toList <:+: line.toList)

/-- Environment of one `ProxyClient.start` execution. -/
structure ProxyEnv where
  /-- whether the proxy-client binary was found (else `FileNotFoundError`). -/
  binaryFound : Bool
  /-- whether the process terminated within the 5-second grace window. -/
  exitsWithinGrace : Bool
  /-- stderr captured when the process terminated early. -/
  stderrOutput : String
  /-- successive stdout line reads of the monitor: elapsed seconds at the
  post-read timeout check, and the line content. -/
  reads : List (Nat × String)
  /-- whether the driven HTTP request of the probe thread succeeded. -/
  probeOk : Bool
deriving DecidableEq, Repr

/-- Decision of `_monitor_attestation` on one line read. -/
inductive MonitorStep
  | validated
  | timedOut
deriving DecidableEq, Repr

/-- Model of the `_monitor_attestation` loop (src/yocto/proxy.py lines
71-95): for each read, the marker test comes first and the 30-second
timeout check second; `none` means the monitor is still blocked reading
(no decision reached on the given reads). -/
def monitorAttestation : List (Nat × String) → Option MonitorStep
  | [] => none
  | (t, line) :: rest =>
      if containsMarker line then some .validated
      else if 30 < t then some .timedOut
      else monitorAttestation rest

/-- Errors that `ProxyClient.start` can raise. -/
inductive StartErr
  | binaryNotFound
  | earlyExit (stderr : String)
  | timeout
deriving DecidableEq, Repr

/-- Terminated outcome of `ProxyClient.start`: the returned boolean
together with whether the request thread had been joined before the
return; or a raised exception. -/
inductive StartResult
  | ok (ret : Bool) (probeJoined : Bool)
  | err (e : StartErr)
deriving DecidableEq, Repr

/-- Model of `ProxyClient.start` (src/yocto/proxy.py lines 22-69).
`none` means the call never terminates (monitor blocked on `readline`
with no further output).  Note that the outcome does not consult
`env.probeOk`: the probe thread joins on both success and failure of its
HTTP request, and its exception is lost with the thread. -/
def proxyStart (env : ProxyEnv) : Option StartResult :=
  if ¬ env.binaryFound then some (.err .binaryNotFound)
  else if env.exitsWithinGrace then some (.err (.earlyExit env.stderrOutput))
  else
    match monitorAttestation env.reads with
    | some .validated => some (.ok true true)
    | some .timedOut => some (.err .timeout)
    | none => none

/-! ## VM IP lookup (C3)

Azure: `AzureApi.get_vm_ip` (src/yocto/cloud/azure/api.py lines 652-713)
loops `for attempt in range(10)`, invoking `az vm list-ip-addresses`
once per iteration; a non-zero exit raises immediately; empty VM info
and a missing IP field are the two retryable sub-states, each retried
with a 3-second sleep unless the attempt budget is exhausted, in which
case a `RuntimeError` is raised.

GCP: `GcpApi.get_vm_ip` (src/yocto/cloud/gcp/api.py lines 1069-1092)
performs a single `instances.get` call and raises `ValueError` as soon
as the interface list, the access-config list or the `nat_i_p` field is
not yet populated — it has no loop at all, although its own docstring
says "with retry logic".

Each backend is a function from the query index to the response
returned by the cloud for that query; results carry the number of
queries issued. -/

/-- Attempt bound of the Azure retry loop (`max_retries = 10`). -/
def azureMaxRetries : Nat := 10

/-- Fixed inter-attempt sleep of the Azure retry loop (`retry_delay = 3`
seconds). -/
def azureRetryDelaySeconds : Nat := 3

/-- Response of one `az vm list-ip-addresses` invocation. -/
inductive AzIpResp
  /-- non-zero exit code, with captured stderr. -/
  | cliFail (stderr : String)
  /-- the command succeeded but returned an empty list (`not vm_info`). -/
  | emptyInfo
  /-- VM info present but the public-IP field not yet populated
  (`KeyError`/`IndexError` on the nested access). -/
  | missingIpField
  /-- the fully populated answer. -/
  | ipAddr (a : String)
deriving DecidableEq, Repr

/-- One pass of the Azure retry loop starting at `attempt`, with
`fuel` iterations left (`fuel = azureMaxRetries - attempt`); returns the
address plus the total number of queries issued so far. -/
def azureGetVmIpAux (backend : Nat → AzIpResp) : Nat → Nat → Except String (String × Nat)
  | _, 0 => .error "Failed to get IP address"
  | attempt, fuel + 1 =>
      match backend attempt with
      | .cliFail stderr => .error ("Failed to get IP address: " ++ stderr)
      | .ipAddr a => .ok (a, attempt + 1)
      | .emptyInfo =>
          if fuel = 0 then .error "Failed to get VM info after 10 attempts"
          else azureGetVmIpAux backend (attempt + 1) fuel
      | .missingIpField =>
          if fuel = 0 then .error "Failed to get IP address after 10 attempts"
          else azureGetVmIpAux backend (attempt + 1) fuel

/-- Model of `AzureApi.get_vm_ip`. -/
def azureGetVmIp (backend : Nat → AzIpResp) : Except String (String × Nat) :=
  azureGetVmIpAux backend 0 azureMaxRetries

/-- Response of the single `instances.get` call of `GcpApi.get_vm_ip`. -/
inductive GcpIpResp
  | noInterfaces
  | noAccessConfigs
  | noNatIp
  | ipAddr (a : String)
deriving DecidableEq, Repr

/-- Model of `GcpApi.get_vm_ip`: a single query, raising `ValueError` on
every not-yet-populated sub-state; the result carries the number of
queries issued. -/
def gcpGetVmIp (backend : Nat → GcpIpResp) : Except String (String × Nat) :=
  match backend 0 with
  | .noInterfaces => .error "Instance has no network instances"
  | .noAccessConfigs => .error "Instance network interface has no access config"
  | .noNatIp => .error "Instance network interface has no nat_ip"
  | .ipAddr a => .ok (a, 1)

/-- Stub backend of the spec scenario: not ready on the first 3 queries,
a valid address on the 4th. -/
def stubAzureBackend : Nat → AzIpResp :=
  fun i => if i < 3 then .emptyInfo else .ipAddr "10.0.0.5"

/-- Same scenario for the GCP binding: the IP field is not yet populated
on the first 3 queries, valid on the 4th. -/
def stubGcpBackend : Nat → GcpIpResp :=
  fun i => if i < 3 then .noNatIp else .ipAddr "10.0.0.5"

/-! ## Interactive confirmation (src/yocto/cloud/cloud_parser.py `confirm`)

`confirm` returns `True` when the user answers `y` and raises
`ValueError` otherwise — it never returns `False`. -/

/-- Model of `confirm`: the boolean argument is whether the interactive
answer was yes. -/
def confirm (answerIsYes : Bool) (what : String) : Except String Bool :=
  if answerIsYes then .ok true else .error ("Aborting; will not " ++ what)

/-! ## VM teardown (C5)

`AzureApi.delete_vm` (src/yocto/cloud/azure/api.py lines 715-782) and
`GcpApi.delete_vm` (src/yocto/cloud/gcp/api.py lines 1094-1144) share
the same shape: look the VM up in the partition of this binding in the
metadata store (absent → log and return `False`), interactively confirm,
delete the VM (failure → log and return `False`), delete the disk
(`delete_disk` raises on failure — `run_command` with `check=True` on
Azure, `wait_for_extended_operation` on GCP — and the exception
propagates out of `delete_vm`), then remove the metadata entry and
return `True`.  Outcomes of the two cloud deletions are threaded in as
booleans; the result pairs the `Except`-wrapped return value with the
final metadata store. -/

/-- Model of `AzureApi.delete_vm`. -/
def azure_delete_vm (md : Metadata) (vmName : String)
    (confirmAns vmDeleteOk diskDeleteOk : Bool) :
    Except String Bool × Metadata :=
  let part := (alookup md.resources "azure").getD []
  match alookup part vmName with
  | none => (.ok false, md)
  | some _meta =>
      match confirm confirmAns ("delete VM " ++ vmName) with
      | .error e => (.error e, md)
      | .ok _ =>
          if ¬ vmDeleteOk then (.ok false, md)
          else if ¬ diskDeleteOk then
            (.error "Command failed: az disk delete", md)
          else (.ok true, remove_vm_from_metadata md vmName "azure")

/-- Model of `GcpApi.delete_vm`; identical control flow against the
`gcp` partition, with the disk-deletion failure raised out of
`wait_for_extended_operation`. -/
def gcp_delete_vm (md : Metadata) (vmName : String)
    (confirmAns vmDeleteOk diskDeleteOk : Bool) :
    Except String Bool × Metadata :=
  let part := (alookup md.resources "gcp").getD []
  match alookup part vmName with
  | none => (.ok false, md)
  | some _meta =>
      match confirm confirmAns ("delete VM " ++ vmName) with
      | .error e => (.error e, md)
      | .ok _ =>
          if ¬ vmDeleteOk then (.ok false, md)
          else if ¬ diskDeleteOk then
            (.error "disk deletion failed", md)
          else (.ok true, remove_vm_from_metadata md vmName "gcp")

/-! ## DNS record update (src/yocto/cloud/azure/api.py lines 216-230)

The DNS A record set is modelled as the list of addresses it currently
holds.  `get_existing_dns_ips` enumerates them, `remove_dns_ip` removes
one address from the set, `add_dns_ip` appends one.  `update_dns_record`
with `remove_old` first snapshots the existing addresses, removes each
non-empty one, then adds the new address. -/

/-- Model of `AzureApi.get_existing_dns_ips`: the listed addresses. -/
def get_existing_dns_ips (recordSet : List String) : List String := recordSet

/-- Model of `AzureApi.remove_dns_ip`: remove the address from the
record set. -/
def remove_dns_ip (recordSet : List String) (ip : String) : List String :=
  recordSet.filter (fun x => !(x == ip))

/-- Model of `AzureApi.add_dns_ip`: add the address to the record set. -/
def add_dns_ip (recordSet : List String) (ip : String) : List String :=
  recordSet ++ [ip]

/-- Model of `AzureApi.update_dns_record`: when `removeOld`, iterate over
the snapshot of existing addresses removing each non-empty one, then add
the new address. -/
def update_dns_record (recordSet : List String) (ip : String)
    (removeOld : Bool) : List String :=
  let cleared :=
    if removeOld then
      (get_existing_dns_ips recordSet).foldl
        (fun st prevIp => if prevIp ≠ "" then remove_dns_ip st prevIp else st)
        recordSet
    else recordSet
  add_dns_ip cleared ip

/-! ## GCP name sanitizer (src/yocto/cloud/gcp/api.py
`GcpApi._sanitize_gcp_name`, lines 72-101)

Names are modelled as lists of characters.  The steps mirror the source
in order: lowercase, replace underscores and dots with hyphens, remove
every character outside `[a-z0-9-]`, prepend `disk-` when the name is
non-empty and does not start with a letter, trim to 63 characters,
strip trailing hyphens.  Lowercasing and the alphabetic test are the
ASCII ones; every character on which Python and ASCII case folding could
disagree is removed by the character-class filter either way. -/

/-- Character class kept by the `re.sub(r"[^a-z0-9-]", "", name)` step:
`a`-`z` (codepoints 97-122), `0`-`9` (48-57) and `-` (45). -/
def isGcpAllowed (c : Char) : Bool :=
  decide ((97 ≤ c.toNat ∧ c.toNat ≤ 122) ∨ (48 ≤ c.toNat ∧ c.toNat ≤ 57) ∨ c.toNat = 45)

/-- Model of `name.rstrip("-")`: remove every trailing hyphen. -/
def rstripHyphens : List Char → List Char
  | [] => []
  | c :: t =>
      match rstripHyphens t with
      | [] => if c = '-' then [] else [c]
      | x :: xs => c :: x :: xs

/-- Model of the leading-character fix-up step: when the name is
non-empty and does not start with a letter, prepend `disk-`. -/
def fixLeadingChar : List Char → List Char
  | [] => []
  | c :: t => if c.isAlpha then c :: t else 'd' :: 'i' :: 's' :: 'k' :: '-' :: c :: t

/-- Model of `GcpApi._sanitize_gcp_name`. -/
def sanitizeGcpName (name : List Char) : List Char :=
  let lowered := name.map Char.toLower
  let replaced := lowered.map (fun c => if c = '_' ∨ c = '.' then '-' else c)
  let filtered := replaced.filter isGcpAllowed
  let fixedUp := fixLeadingChar filtered
  let clamped := fixedUp.take 63
  rstripHyphens clamped

/-- Model of `CloudApi.get_raw_disk_name`: the raw concatenation
`vm_name + "_" + artifact`. -/
def get_raw_disk_name (vmName artifact : List Char) : List Char :=
  vmName ++ '_' :: artifact

/-! ## Persistent IP allocator (src/yocto/genesis_deploy.py
`GenesisIPManager`, lines 35-58)

The backing cloud state records whether the shared IP resource group
exists and which public-IP resources are allocated (name → address),
together with a count of `create_public_ip` invocations.  The address
chosen by the cloud for a new allocation is the `alloc` argument; the
two interactive confirmations (resource-group creation, IP creation)
are the boolean arguments. -/

/-- Backing cloud state of the allocator. -/
structure IpState where
  rgExists : Bool
  ips : List (String × String)
  createIpCalls : Nat
deriving DecidableEq, Repr

/-- Model of `AzureApi.get_existing_public_ip`: `az network public-ip
show --query ipAddress`; a missing resource or an empty/`"None"` answer
is reported as absent. -/
def get_existing_public_ip (st : IpState) (name : String) : Option String :=
  match alookup st.ips name with
  | none => none
  | some ip => if ip ≠ "" ∧ ip ≠ "None" then some ip else none

/-- Model of `AzureApi.create_public_ip`: allocate the resource under
`name` and return the address the cloud chose. -/
def create_public_ip (st : IpState) (name alloc : String) : String × IpState :=
  (alloc, { st with ips := alistSet st.ips name alloc,
                    createIpCalls := st.createIpCalls + 1 })

/-- Model of `AzureApi.ensure_created_resource_group` as used by
`GenesisIPManager.ensure_genesis_resource_group`: a no-op when the group
exists, otherwise interactively confirmed creation. -/
def ensure_created_resource_group (st : IpState) (confirmRg : Bool) :
    Except String IpState :=
  if st.rgExists then .ok st
  else
    match confirm confirmRg "create genesis resource group" with
    | .error e => .error e
    | .ok _ => .ok { st with rgExists := true }

/-- Deterministic IP resource name derived from the node index
(`ip_name = f"genesis-node-bracketed-node-number"`). -/
def genesisIpName (node : Nat) : String := "genesis-node-" ++ toString node

/-- Model of `GenesisIPManager.get_or_create_node_ip`: ensure the shared
resource group, derive the deterministic name from the node index,
return the existing address when present, otherwise confirm and
allocate. -/
def get_or_create_node_ip (st : IpState) (node : Nat) (alloc : String)
    (confirmRg confirmIp : Bool) :
    Except String ((String × String) × IpState) :=
  match ensure_created_resource_group st confirmRg with
  | .error e => .error e
  | .ok st1 =>
      match get_existing_public_ip st1 (genesisIpName node) with
      | some ip => .ok ((ip, genesisIpName node), st1)
      | none =>
          match confirm confirmIp "create new IP" with
          | .error e => .error e
          | .ok _ =>
              match create_public_ip st1 (genesisIpName node) alloc with
              | (addr, st2) => .ok ((addr, genesisIpName node), st2)

/-! ## Deployment pipeline (src/yocto/deployment/deploy.py
`deploy_image`, lines 49-88)

The pipeline checks that the image file exists, then: reuse the existing
disk name (logging a warning) or create the disk; upload the bytes;
create the security group and its standard rules; create the VM from
the (possibly reused) disk; resolve the public IP.  Each provider call
may raise; its outcome is threaded in as an `Except` argument, and the
trace records how often each operation was invoked plus the disk name
passed to `create_vm`. -/

/-- Invocation counts of the provider operations of the pipeline. -/
structure PipelineTrace where
  createDiskCalls : Nat
  uploadDiskCalls : Nat
  createNsgCalls : Nat
  nsgRuleSetCalls : Nat
  createVmCalls : Nat
  /-- disk name passed to `create_vm`, when it was invoked. -/
  vmDiskName : Option String
deriving DecidableEq, Repr

/-- Model of `deploy_image`.  `diskName` is the name computed by
`get_disk_name`, which is also what `create_disk` returns (both bindings
derive it from the same sanitized raw name, so existence checks and
creation agree on the name). -/
def deploy_image (imagePathExists diskExists : Bool) (diskName : String)
    (uploadRes nsgRes rulesRes vmRes : Except String Unit)
    (ipRes : Except String String) (tr : PipelineTrace) :
    Except String String × PipelineTrace :=
  if ¬ imagePathExists then (.error "Image path not found", tr)
  else
    let tr1 :=
      if diskExists then tr
      else { tr with createDiskCalls := tr.createDiskCalls + 1 }
    let tr2 := { tr1 with uploadDiskCalls := tr1.uploadDiskCalls + 1 }
    match uploadRes with
    | .error e => (.error e, tr2)
    | .ok _ =>
        let tr3 := { tr2 with createNsgCalls := tr2.createNsgCalls + 1 }
        match nsgRes with
        | .error e => (.error e, tr3)
        | .ok _ =>
            let tr4 := { tr3 with nsgRuleSetCalls := tr3.nsgRuleSetCalls + 1 }
            match rulesRes with
            | .error e => (.error e, tr4)
            | .ok _ =>
                let tr5 := { tr4 with createVmCalls := tr4.createVmCalls + 1,
                                      vmDiskName := some diskName }
                match vmRes with
                | .error e => (.error e, tr5)
                | .ok _ =>
                    match ipRes with
                    | .error e => (.error e, tr5)
                    | .ok ip => (.ok ip, tr5)

/-! ## Supporting lemmas -/

theorem alookup_alistSet_self {α : Type} (l : List (String × α)) (k : String) (v : α) :
    alookup (alistSet l k v) k = some v := by
  induction l with
  | nil => simp [alistSet, alookup]
  | cons hd t ih =>
      obtain ⟨k0, v0⟩ := hd
      by_cases h : k0 = k
      · simp [alistSet, alookup, h]
      · simp [alistSet, alookup, h, ih]

theorem lookupResource_update (md : Metadata) (cloud vmName : String)
    (rec : ResourceRecord) :
    lookupResource (update_deploy_metadata md cloud vmName rec) cloud vmName = some rec := by
  unfold lookupResource update_deploy_metadata
  rw [alookup_alistSet_self]
  exact alookup_alistSet_self _ _ _

/-! ## Claim C1 — metadata versus attestation failure -/

/-- Claim C1, counterexample.  The claim states that after an attestation
failure the metadata store holds no `ResourceRecord` for the deployed
`(provider, vmName)`.  Starting from an empty store, with a successful
deploy and a failing attestation handshake, the top-level flow exits
with failure (code 1) yet the store does hold the record: `main` runs
`update_deploy_metadata` before `start_proxy_server`. -/
theorem c1_attestation_metadata_counterexample :
    (mainDeployFlow ⟨[], []⟩ "azure" "vm1" "dom" "vmcfg"
        (.ok ⟨"img.vhd", "1.2.3.4"⟩) (.error "attestation failed")).fst = 1 ∧
    lookupResource
      (mainDeployFlow ⟨[], []⟩ "azure" "vm1" "dom" "vmcfg"
        (.ok ⟨"img.vhd", "1.2.3.4"⟩) (.error "attestation failed")).snd
      "azure" "vm1" = some ⟨"img.vhd", "1.2.3.4", "dom", "vmcfg"⟩ :=
  ⟨rfl, rfl⟩

/-- Claim C1 (amended): the top-level deploy flow records the
`ResourceRecord` as soon as the deploy pipeline has returned
successfully and before the attestation handshake runs.  An attestation
failure therefore exits with failure (code 1) while the record for the
deployed `(provider, vmName)` is present in the store; only a failure of
the deploy pipeline itself leaves the metadata store unchanged (and also
exits with failure). -/
theorem c1_metadata_recorded_before_attestation
    (md : Metadata) (cloud vmName domainSnap vmSnap : String)
    (out : DeployOutput) (attestErr deployErr : String)
    (attestRes : Except String Unit) :
    mainDeployFlow md cloud vmName domainSnap vmSnap (.ok out) (.error attestErr)
        = (1, update_deploy_metadata md cloud vmName
              ⟨out.artifact, out.public_ip, domainSnap, vmSnap⟩) ∧
    lookupResource
        (mainDeployFlow md cloud vmName domainSnap vmSnap
          (.ok out) (.error attestErr)).snd cloud vmName
        = some ⟨out.artifact, out.public_ip, domainSnap, vmSnap⟩ ∧
    mainDeployFlow md cloud vmName domainSnap vmSnap (.error deployErr) attestRes
        = (1, md) := by
  refine ⟨rfl, ?_, rfl⟩
  exact lookupResource_update md cloud vmName _

/-! ## Claim C2 — disk-upload access revocation -/

/-- Claim C2, counterexample.  The claim states that after `upload_disk`
terminates, provided the grant phase succeeded, the revoke-access
operation has been invoked even when the bulk-copy phase raises.  With a
successful grant and a failing copy, `upload_disk` propagates the copy
error and the revoke operation has been invoked zero times: the source
has no `try`/`finally` around the copy. -/
theorem c2_revoke_skipped_counterexample :
    upload_disk (.ok "sas-uri") (.error "azcopy failed") (.ok ()) ⟨0, 0, 0⟩
      = (.error "azcopy failed", ⟨1, 1, 0⟩) :=
  rfl

/-- Claim C2 (amended): the revoke-access phase of `upload_disk` is
invoked exactly when both the grant phase and the bulk-copy phase
succeed.  When the copy raises, the exception propagates out of
`upload_disk` and revocation is not invoked; when grant and copy
succeed, revocation is invoked exactly once. -/
theorem c2_upload_disk_revocation (sasUri copyErr : String)
    (revokeRes : Except String Unit) (tr : UploadTrace) :
    upload_disk (.ok sasUri) (.error copyErr) revokeRes tr
        = (.error copyErr,
           { tr with grantCalls := tr.grantCalls + 1,
                     copyCalls := tr.copyCalls + 1 }) ∧
    (upload_disk (.ok sasUri) (.ok ()) revokeRes tr).snd.revokeCalls
        = tr.revokeCalls + 1 := by
  constructor
  · rfl
  · cases revokeRes <;> rfl

/-! ## Claim C3 — retrying VM IP lookup -/

/-- Claim C3: for every provider binding, `get_vm_ip` retries transient
not-yet-populated conditions up to 10 attempts with a 3-second delay,
and against a backend that is not ready on the first 3 queries it
succeeds on the 4th with no more than 4 queries.  The Azure binding
behaves exactly so (and its loop constants are 10 attempts and 3
seconds); the GCP binding, however, issues a single query and raises
`ValueError` on the first not-ready answer, contradicting its own
docstring "with retry logic" — the claim fails for the GCP binding and
this theorem evaluates both bindings at that failing input. -/
theorem c3_get_vm_ip_retry_divergence :
    azureGetVmIp stubAzureBackend = .ok ("10.0.0.5", 4) ∧
    azureMaxRetries = 10 ∧ azureRetryDelaySeconds = 3 ∧
    gcpGetVmIp stubGcpBackend
        = .error "Instance network interface has no nat_ip" :=
  ⟨rfl, rfl, rfl, rfl⟩

/-! ## Claim C4 — attestation success conditions -/

/-- Claim C4, counterexample.  The claim states that a failed probe
request results in failure, never success.  In the environment below the
probe request fails (`probeOk = false`) while the success marker is
observed in time, and `ProxyClient.start` nevertheless returns `True`:
the `ConnectionError` of the probe thread dies with the thread, and the
monitor only joins the thread before returning success. -/
theorem c4_probe_failure_success_counterexample :
    proxyStart ⟨true, false, "", [(2, attestationMarker)], false⟩
        = some (.ok true true) ∧
    (⟨true, false, "", [(2, attestationMarker)], false⟩ : ProxyEnv).probeOk
        = false :=
  ⟨rfl, rfl⟩

/-- Claim C4 (amended): the handshake reports success only after the
attestation-success marker has been observed by the monitor and the
probe thread has been joined, and the no-marker timeout and the early
process exit are failures — but the outcome is independent of whether
the driven probe request succeeded: a failed probe request does not make
the handshake fail (its exception is lost with the request thread). -/
theorem c4_attestation_success_conditions (env : ProxyEnv) :
    (∀ r pj, proxyStart env = some (.ok r pj) →
        r = true ∧ pj = true ∧
        monitorAttestation env.reads = some .validated ∧
        env.binaryFound = true ∧ env.exitsWithinGrace = false) ∧
    (env.binaryFound = true → env.exitsWithinGrace = true →
        proxyStart env = some (.err (.earlyExit env.stderrOutput))) ∧
    (env.binaryFound = true → env.exitsWithinGrace = false →
        monitorAttestation env.reads = some .timedOut →
        proxyStart env = some (.err .timeout)) ∧
    proxyStart env
        = proxyStart ⟨env.binaryFound, env.exitsWithinGrace,
                      env.stderrOutput, env.reads, true⟩ := by
  obtain ⟨bf, eg, se, rd, pk⟩ := env
  refine ⟨?_, ?_, ?_, ?_⟩
  · intro r pj h
    cases bf with
    | false => simp [proxyStart] at h
    | true =>
        cases eg with
        | true => simp [proxyStart] at h
        | false =>
            cases hm : monitorAttestation rd with
            | none => simp [proxyStart, hm] at h
            | some step =>
                cases step with
                | validated =>
                    simp [proxyStart, hm] at h
                    exact ⟨h.1, h.2, rfl, rfl, rfl⟩
                | timedOut => simp [proxyStart, hm] at h
  · intro h1 h2
    subst h1; subst h2
    simp [proxyStart]
  · intro h1 h2 hm
    subst h1; subst h2
    simp [proxyStart, hm]
  · rfl

/-- Claim C4, witness for the amended theorem: a concrete environment in
which the marker is observed at second 2, instantiating the success
conjunct. -/
theorem c4_attestation_success_conditions_witness :
    true = true ∧ true = true ∧
    monitorAttestation [(2, attestationMarker ++ " extra")] = some .validated ∧
    true = true ∧ false = false :=
  (c4_attestation_success_conditions
      ⟨true, false, "", [(2, attestationMarker ++ " extra")], false⟩).1
    true true rfl

/-! ## Claim C5 — teardown error behaviour -/

/-- Claim C5: the claim states that VM teardown returns a boolean rather
than raising on any deletion failure, and removes the metadata entry
only after both deletions have completed.  The ordering half is what the
code does, but the boolean half fails: with the VM present in metadata,
the deletion confirmed and the VM deletion succeeding, a disk-deletion
failure raises out of `delete_vm` in both bindings (the exception of
`run_command` on Azure and of `wait_for_extended_operation` on GCP is
not caught), contradicting the docstring of each of the two functions, "Returns True
if successful, False otherwise".  This theorem evaluates both bindings
at that failing input — the raise leaves the metadata store unchanged —
and, for contrast, the fully successful teardown, which does remove
exactly the entry. -/
theorem c5_delete_vm_disk_failure_raises :
    azure_delete_vm
        ⟨[("azure", [("vm1", ⟨"img.vhd", "1.2.3.4", "dom", "vmcfg"⟩)])], []⟩
        "vm1" true true false
      = (.error "Command failed: az disk delete",
         ⟨[("azure", [("vm1", ⟨"img.vhd", "1.2.3.4", "dom", "vmcfg"⟩)])], []⟩) ∧
    gcp_delete_vm
        ⟨[("gcp", [("vm1", ⟨"img.vhd", "1.2.3.4", "dom", "vmcfg"⟩)])], []⟩
        "vm1" true true false
      = (.error "disk deletion failed",
         ⟨[("gcp", [("vm1", ⟨"img.vhd", "1.2.3.4", "dom", "vmcfg"⟩)])], []⟩) ∧
    azure_delete_vm
        ⟨[("azure", [("vm1", ⟨"img.vhd", "1.2.3.4", "dom", "vmcfg"⟩)])], []⟩
        "vm1" true true true
      = (.ok true, ⟨[("azure", [])], []⟩) :=
  ⟨rfl, rfl, rfl⟩

/-! ## Claim C10 — `ProxyClient.start` never returns `False` -/

/-- Claim C10: on every execution `ProxyClient.start` either returns
`True` or raises; it never returns `False`, so the caller branch
`if not self.proxy.start()` in `Deployer.start_proxy_server` is
unreachable. -/
theorem c10_proxy_start_never_false (env : ProxyEnv) (r pj : Bool)
    (h : proxyStart env = some (.ok r pj)) : r = true := by
  obtain ⟨bf, eg, se, rd, pk⟩ := env
  cases bf with
  | false => simp [proxyStart] at h
  | true =>
      cases eg with
      | true => simp [proxyStart] at h
      | false =>
          cases hm : monitorAttestation rd with
          | none => simp [proxyStart, hm] at h
          | some step =>
              cases step with
              | validated => simp [proxyStart, hm] at h; exact h.1
              | timedOut => simp [proxyStart, hm] at h

/-- Claim C10, witness: a concrete run that observes the marker returns
`True`. -/
theorem c10_proxy_start_never_false_witness :
    proxyStart ⟨true, false, "", [(1, attestationMarker)], true⟩
        = some (.ok true true) ∧ true = true :=
  ⟨rfl,
   c10_proxy_start_never_false
     ⟨true, false, "", [(1, attestationMarker)], true⟩ true true rfl⟩

/-! ## Sanitizer lemmas (claim C6) -/

theorem mem_rstripHyphens {x : Char} : ∀ {s : List Char}, x ∈ rstripHyphens s → x ∈ s := by
  intro s
  induction s with
  | nil => intro h; exact absurd h (by simp [rstripHyphens])
  | cons c t ih =>
      intro h
      cases ht : rstripHyphens t with
      | nil =>
          rw [rstripHyphens, ht] at h
          by_cases hc : c = '-'
          · simp [hc] at h
          · simp [hc] at h; simp [h]
      | cons y ys =>
          rw [rstripHyphens, ht] at h
          rcases List.mem_cons.mp h with h1 | h2
          · simp [h1]
          · exact List.mem_cons_of_mem c (ih (ht ▸ h2))

theorem length_rstripHyphens_le : ∀ (s : List Char), (rstripHyphens s).length ≤ s.length := by
  intro s
  induction s with
  | nil => simp [rstripHyphens]
  | cons c t ih =>
      cases ht : rstripHyphens t with
      | nil =>
          rw [rstripHyphens, ht]
          by_cases hc : c = '-' <;> simp [hc]
      | cons y ys =>
          rw [rstripHyphens, ht]
          rw [ht] at ih
          simpa using Nat.succ_le_succ ih

theorem rstripHyphens_idem : ∀ (s : List Char), rstripHyphens (rstripHyphens s) = rstripHyphens s := by
  intro s
  induction s with
  | nil => rfl
  | cons c t ih =>
      cases ht : rstripHyphens t with
      | nil =>
          rw [rstripHyphens, ht]
          by_cases hc : c = '-'
          · simp [hc, rstripHyphens]
          · simp [hc, rstripHyphens]
      | cons y ys =>
          rw [rstripHyphens, ht]
          rw [ht] at ih
          rw [rstripHyphens]
          rw [ih]

theorem rstripHyphens_cons_shape (c : Char) (t : List Char) :
    rstripHyphens (c :: t) = [] ∨ ∃ r, rstripHyphens (c :: t) = c :: r := by
  cases ht : rstripHyphens t with
  | nil =>
      rw [rstripHyphens, ht]
      by_cases hc : c = '-'
      · left; simp [hc]
      · right; exact ⟨[], by simp [hc]⟩
  | cons y ys =>
      rw [rstripHyphens, ht]
      exact Or.inr ⟨y :: ys, rfl⟩

theorem toLower_of_allowed {c : Char} (h : isGcpAllowed c = true) :
    c.toLower = c := by
  unfold isGcpAllowed at h
  rw [decide_eq_true_eq] at h
  unfold Char.toLower
  rw [if_neg]
  rcases h with ⟨h1, h2⟩ | ⟨h1, h2⟩ | h1 <;> intro hc <;> omega

theorem replace_fixed_of_allowed {c : Char} (h : isGcpAllowed c = true) :
    (if c = '_' ∨ c = '.' then '-' else c) = c := by
  rw [if_neg]
  rintro (hc | hc) <;> subst hc <;> exact absurd h (by decide)

theorem map_toLower_fixed {s : List Char}
    (h : ∀ c ∈ s, isGcpAllowed c = true) : s.map Char.toLower = s := by
  induction s with
  | nil => rfl
  | cons c t ih =>
      rw [List.map_cons, toLower_of_allowed (h c (by simp)),
        ih (fun x hx => h x (List.mem_cons_of_mem c hx))]

theorem map_replace_fixed {s : List Char}
    (h : ∀ c ∈ s, isGcpAllowed c = true) :
    s.map (fun c => if c = '_' ∨ c = '.' then '-' else c) = s := by
  induction s with
  | nil => rfl
  | cons c t ih =>
      rw [List.map_cons, replace_fixed_of_allowed (h c (by simp)),
        ih (fun x hx => h x (List.mem_cons_of_mem c hx))]

theorem filter_allowed_fixed {s : List Char}
    (h : ∀ c ∈ s, isGcpAllowed c = true) : s.filter isGcpAllowed = s :=
  List.filter_eq_self.mpr h

/-- Invariant of sanitized names: every character is in the allowed
class, a non-empty name starts with a letter, the length is at most 63,
and there is no trailing hyphen. -/
def SanitizedInv (s : List Char) : Prop :=
  (∀ c ∈ s, isGcpAllowed c = true) ∧
  (match s with
   | [] => True
   | c :: _ => c.isAlpha = true) ∧
  s.length ≤ 63 ∧
  rstripHyphens s = s

theorem mem_fixLeadingChar {c : Char} {s : List Char}
    (hall : ∀ x ∈ s, isGcpAllowed x = true) (hc : c ∈ fixLeadingChar s) :
    isGcpAllowed c = true := by
  cases s with
  | nil => exact absurd hc (by simp [fixLeadingChar])
  | cons y ys =>
      simp only [fixLeadingChar] at hc
      by_cases hy : y.isAlpha
      · rw [if_pos hy] at hc
        exact hall c hc
      · rw [if_neg hy] at hc
        rcases List.mem_cons.mp hc with h1 | hc
        · subst h1; decide
        rcases List.mem_cons.mp hc with h1 | hc
        · subst h1; decide
        rcases List.mem_cons.mp hc with h1 | hc
        · subst h1; decide
        rcases List.mem_cons.mp hc with h1 | hc
        · subst h1; decide
        rcases List.mem_cons.mp hc with h1 | hc
        · subst h1; decide
        · exact hall c hc

theorem head_fixLeadingChar {s : List Char} {c : Char} {t : List Char}
    (h : fixLeadingChar s = c :: t) : c.isAlpha = true := by
  cases s with
  | nil => exact absurd h (by simp [fixLeadingChar])
  | cons y ys =>
      simp only [fixLeadingChar] at h
      by_cases hy : y.isAlpha
      · rw [if_pos hy] at h
        cases h; exact hy
      · rw [if_neg hy] at h
        cases h; decide

theorem sanitizeGcpName_satisfies_inv (x : List Char) :
    SanitizedInv (sanitizeGcpName x) := by
  have hx : sanitizeGcpName x
      = rstripHyphens ((fixLeadingChar (((x.map Char.toLower).map
          (fun c => if c = '_' ∨ c = '.' then '-' else c)).filter
            isGcpAllowed)).take 63) := rfl
  rw [hx]
  generalize hfil : ((x.map Char.toLower).map
      (fun c => if c = '_' ∨ c = '.' then '-' else c)).filter isGcpAllowed
      = filtered
  have hfiltered : ∀ c ∈ filtered, isGcpAllowed c = true := by
    intro c hc
    rw [← hfil] at hc
    exact List.of_mem_filter hc
  refine ⟨?_, ?_, ?_, rstripHyphens_idem _⟩
  · intro c hc
    exact mem_fixLeadingChar hfiltered
      (List.take_subset 63 (fixLeadingChar filtered) (mem_rstripHyphens hc))
  · cases hfu : fixLeadingChar filtered with
    | nil => simp [rstripHyphens]
    | cons c t =>
        have htake : (c :: t).take 63 = c :: t.take 62 := rfl
        rw [htake]
        rcases rstripHyphens_cons_shape c (t.take 62) with hsh | ⟨r, hsh⟩
        · rw [hsh]; trivial
        · rw [hsh]
          exact head_fixLeadingChar hfu
  · calc (rstripHyphens ((fixLeadingChar filtered).take 63)).length
        ≤ ((fixLeadingChar filtered).take 63).length := length_rstripHyphens_le _
      _ ≤ 63 := by simp

theorem sanitizeGcpName_fixed_of_inv {s : List Char} (h : SanitizedInv s) :
    sanitizeGcpName s = s := by
  obtain ⟨hall, hhead, hlen, hrs⟩ := h
  have hx : sanitizeGcpName s
      = rstripHyphens ((fixLeadingChar (((s.map Char.toLower).map
          (fun c => if c = '_' ∨ c = '.' then '-' else c)).filter
            isGcpAllowed)).take 63) := rfl
  have hfix : fixLeadingChar s = s := by
    cases s with
    | nil => rfl
    | cons c t =>
        simp only [fixLeadingChar]
        exact if_pos (by simpa using hhead)
  rw [hx, map_toLower_fixed hall, map_replace_fixed hall,
    filter_allowed_fixed hall, hfix, List.take_of_length_le hlen, hrs]

/-! ## Claim C6 — sanitizer idempotence -/

/-- Claim C6: the GCP name sanitizer applied to any raw disk name is
idempotent, `sanitize (sanitize x) = sanitize x`; determinism is by
construction since the embedded sanitizer is a pure function of its
argument. -/
theorem c6_sanitize_idempotent (x : List Char) :
    sanitizeGcpName (sanitizeGcpName x) = sanitizeGcpName x :=
  sanitizeGcpName_fixed_of_inv (sanitizeGcpName_satisfies_inv x)

/-! ## Claim C7 — DNS record update -/

/-- Claim C7: `update_dns_record` with `removeOld = true` applied to a
record holding the addresses `A` and `B` leaves the record holding
exactly the new address; with `removeOld = false` it leaves `A`, `B` and
the new address. -/
theorem c7_update_dns_record_spec (A B newIp : String)
    (hA : A ≠ "") (hB : B ≠ "") :
    update_dns_record [A, B] newIp true = [newIp] ∧
    update_dns_record [A, B] newIp false = [A, B, newIp] := by
  constructor
  · unfold update_dns_record get_existing_dns_ips remove_dns_ip add_dns_ip
    by_cases hBA : B = A
    · subst hBA
      simp [hA, hB, List.filter]
    · have hb : (B == A) = false := beq_eq_false_iff_ne.mpr hBA
      have hb' : (A == B) = false := beq_eq_false_iff_ne.mpr (Ne.symm hBA)
      simp [hA, hB, List.filter, hb, hb']
  · rfl

/-- Claim C7, witness at concrete addresses. -/
theorem c7_update_dns_record_spec_witness :
    update_dns_record ["1.1.1.1", "2.2.2.2"] "3.3.3.3" true = ["3.3.3.3"] ∧
    update_dns_record ["1.1.1.1", "2.2.2.2"] "3.3.3.3" false
      = ["1.1.1.1", "2.2.2.2", "3.3.3.3"] :=
  c7_update_dns_record_spec "1.1.1.1" "2.2.2.2" "3.3.3.3"
    (by decide) (by decide)

/-! ## Claim C8 — persistent IP allocator idempotence -/

theorem ensure_rg_ok_fields (st : IpState) (c : Bool) (st1 : IpState)
    (h : ensure_created_resource_group st c = .ok st1) :
    st1.rgExists = true ∧ st1.ips = st.ips ∧ st1.createIpCalls = st.createIpCalls := by
  unfold ensure_created_resource_group at h
  by_cases hrg : st.rgExists
  · rw [if_pos hrg] at h
    cases h
    exact ⟨hrg, rfl, rfl⟩
  · rw [if_neg hrg] at h
    cases c with
    | false => simp [confirm] at h
    | true =>
        simp only [confirm, if_pos] at h
        cases h
        exact ⟨rfl, rfl, rfl⟩

theorem ensure_rg_of_exists (s : IpState) (c : Bool) (h : s.rgExists = true) :
    ensure_created_resource_group s c = .ok s := by
  unfold ensure_created_resource_group
  simp [h]

theorem get_or_create_of_existing (s : IpState) (node : Nat) (alloc : String)
    (cR cI : Bool) (addr : String)
    (hrg : s.rgExists = true)
    (hfind : get_existing_public_ip s (genesisIpName node) = some addr) :
    get_or_create_node_ip s node alloc cR cI = .ok ((addr, genesisIpName node), s) := by
  unfold get_or_create_node_ip
  rw [ensure_rg_of_exists s cR hrg]
  simp [hfind]

/-- Claim C8: `get_or_create_node_ip` is idempotent.  If a first call for
a node index completed successfully — returning an address, the derived
IP resource name and the resulting backing state — then a second call
with the same node index against that state returns the very same
address and name and leaves the state untouched, in particular without
invoking the IP-creation operation again (the `createIpCalls` counter is
unchanged because the state is).  The hypotheses say only that the
address the cloud would allocate is a genuine one (non-empty and not the
literal `"None"` that the CLI prints for an unassigned address). -/
theorem c8_get_or_create_node_ip_idempotent (st : IpState) (node : Nat)
    (alloc allocB : String) (c1 c2 d1 d2 : Bool)
    (a n : String) (s1 : IpState)
    (hval1 : alloc ≠ "") (hval2 : alloc ≠ "None")
    (h : get_or_create_node_ip st node alloc c1 c2 = .ok ((a, n), s1)) :
    get_or_create_node_ip s1 node allocB d1 d2 = .ok ((a, n), s1) := by
  unfold get_or_create_node_ip at h
  cases hE : ensure_created_resource_group st c1 with
  | error e => simp only [hE] at h; cases h
  | ok st1 =>
      simp only [hE] at h
      obtain ⟨hrg1, -, -⟩ := ensure_rg_ok_fields st c1 st1 hE
      cases hL : get_existing_public_ip st1 (genesisIpName node) with
      | some ip =>
          simp only [hL, Except.ok.injEq, Prod.mk.injEq] at h
          obtain ⟨⟨ha, hn⟩, hs⟩ := h
          subst ha; subst hn; subst hs
          exact get_or_create_of_existing st1 node allocB d1 d2 ip hrg1 hL
      | none =>
          cases c2 with
          | false => simp [hL, confirm] at h
          | true =>
              simp only [hL, confirm, if_true, create_public_ip,
                Except.ok.injEq, Prod.mk.injEq] at h
              obtain ⟨⟨ha, hn⟩, hs⟩ := h
              subst ha; subst hn; subst hs
              refine get_or_create_of_existing _ node allocB d1 d2 alloc hrg1 ?_
              unfold get_existing_public_ip
              rw [alookup_alistSet_self]
              exact if_pos ⟨hval1, hval2⟩

/-- Claim C8, witness: starting from a state in which the genesis IP
resource group and the IP for node 1 already exist, a repeated call
returns the recorded address and changes nothing. -/
theorem c8_get_or_create_node_ip_idempotent_witness :
    get_or_create_node_ip
        ⟨true, [("genesis-node-1", "10.0.0.7")], 1⟩ 1 "10.9.9.9" true true
      = .ok (("10.0.0.7", "genesis-node-1"),
             ⟨true, [("genesis-node-1", "10.0.0.7")], 1⟩) :=
  c8_get_or_create_node_ip_idempotent
    ⟨false, [], 0⟩ 1 "10.0.0.7" "10.9.9.9" true true true true
    "10.0.0.7" "genesis-node-1"
    ⟨true, [("genesis-node-1", "10.0.0.7")], 1⟩
    (by decide) (by decide) rfl

/-! ## Claim C9 — disk reuse in the deployment pipeline -/

/-- Claim C9: when `deploy_image` runs with a disk already present for
this spec and image (and the image file exists), the disk-creation
operation is not invoked — its counter is unchanged — while the pipeline
still uploads, creates the security group and its standard rule set,
creates the VM with the reused disk name, and returns the public IP that
the retrying lookup produced. -/
theorem c9_deploy_image_reuses_disk (diskName ip : String) (tr : PipelineTrace) :
    deploy_image true true diskName (.ok ()) (.ok ()) (.ok ()) (.ok ()) (.ok ip) tr
      = (.ok ip,
         { tr with uploadDiskCalls := tr.uploadDiskCalls + 1,
                   createNsgCalls := tr.createNsgCalls + 1,
                   nsgRuleSetCalls := tr.nsgRuleSetCalls + 1,
                   createVmCalls := tr.createVmCalls + 1,
                   vmDiskName := some diskName }) :=
  rfl

end Yocto
